import Mathlib

/-!
Verification of the InvestX-Labs retrieval and ranking engine.

This file gives a shallow embedding of the Python sources under
`backend/legacy/ai-investment-backend` — the recommendation engine
(`ai_models/recommendation_engine 2.py`), the vector search layer
(`ai_models/rag_system/vector_search.py`), the context retriever
(`ai_models/rag_system/context_retriever.py`) and the conversation manager
(`chatbot/conversation_manager.py`) — and proves or refutes the specified
properties of those components.

Modelling conventions:
* Python floats become rationals (`ℚ`); the arithmetic in these components
  only combines decimal literals, so the rational reading is exact except
  where a comment says otherwise.
* Python dicts that act as records become structures; a `.get(k, default)`
  on a field that the surrounding code always populates becomes a plain
  field.  A dict that may be the empty dict `{}` (falsy) becomes an
  `Option`.
* Python string operations are modelled on the character list (`String.data`)
  with structurally recursive helpers, mirroring `in`, `str.split`,
  `str.strip`, `str.lower`, slicing and `str.rfind`.
* Python `set` iteration order is unspecified; sets accumulated and then
  listed are modelled with insertion-ordered deduplication.  No theorem
  below depends on the chosen order.
* External collaborators (Firestore, the vector store, the embedding model)
  enter as explicit parameters carrying their responses; a raised backend
  exception is an `Except.error` value.
-/

set_option maxRecDepth 100000

namespace InvestX

/-! ## Python-style string primitives (structural, kernel-evaluable) -/

/-- `startsWithChars hay needle`: does `hay` start with `needle`? -/
def startsWithChars : List Char → List Char → Bool
  | _, [] => true
  | [], _ :: _ => false
  | c :: cs, d :: ds => (c = d) && startsWithChars cs ds

/-- `hasSubChars hay needle`: Python's substring test `needle in hay`. -/
def hasSubChars : List Char → List Char → Bool
  | [], needle => needle.isEmpty
  | c :: t, needle => startsWithChars (c :: t) needle || hasSubChars t needle

/-- Python `needle in hay` on strings. -/
def strContains (hay needle : String) : Bool :=
  hasSubChars hay.data needle.data

/-- Python slicing `s[:n]`. -/
def strTake (s : String) (n : Nat) : String :=
  String.mk (s.data.take n)

/-- Python `s.lower()` (ASCII case folding suffices for these sources). -/
def lowerStr (s : String) : String :=
  String.mk (s.data.map Char.toLower)

/-- Worker for `splitOnChars`; the fuel starts at the haystack length and
each step consumes one unit while consuming at least one character, so the
fuel never runs out on the wrapper's calls. -/
def splitOnGo (sep : List Char) : Nat → List Char → List Char → List (List Char)
  | 0, hay, cur => [cur ++ hay]
  | fuel + 1, hay, cur =>
    match hay with
    | [] => [cur]
    | c :: t =>
      if startsWithChars hay sep then
        cur :: splitOnGo sep fuel (hay.drop sep.length) []
      else
        splitOnGo sep fuel t (cur ++ [c])

/-- Python `s.split(sep)` for a non-empty separator: split at each
non-overlapping occurrence, left to right. -/
def splitOnChars (sep l : List Char) : List (List Char) :=
  if sep.isEmpty then [l] else splitOnGo sep l.length l []

/-- Python `s.split(sep)` on strings. -/
def strSplitOn (s sep : String) : List String :=
  (splitOnChars sep.data s.data).map String.mk

/-- Drop leading whitespace characters. -/
def dropLeadingWs : List Char → List Char
  | [] => []
  | c :: t => if c.isWhitespace then dropLeadingWs t else c :: t

/-- Python `s.strip()`. -/
def strTrim (s : String) : String :=
  String.mk ((dropLeadingWs (dropLeadingWs s.data).reverse).reverse)

/-- Worker for `pyWords`: split on whitespace runs, discarding empties. -/
def wordsChars : List Char → List Char → List (List Char)
  | [], cur => if cur.isEmpty then [] else [cur]
  | c :: t, cur =>
    if c.isWhitespace then
      if cur.isEmpty then wordsChars t [] else cur :: wordsChars t []
    else
      wordsChars t (cur ++ [c])

/-- Python `s.split()` (no argument): split on whitespace runs. -/
def pyWords (s : String) : List String :=
  (wordsChars s.data []).map String.mk

/-- `" ".join(l)` and friends. -/
def joinWith (sep : String) (l : List String) : String :=
  String.intercalate sep l

/-- Python `s.rfind(c)`: index of the last occurrence of `c`, or `-1`. -/
def rfindGo (c : Char) : List Char → Int → Int → Int
  | [], _, acc => acc
  | x :: xs, i, acc => rfindGo c xs (i + 1) (if x = c then i else acc)

/-- Python `s.rfind(c)` on a string. -/
def strRfind (s : String) (c : Char) : Int :=
  rfindGo c s.data 0 (-1)

/-- Insertion-ordered model of `set.add` followed by `list(...)`. -/
def insertNew (acc : List String) (x : String) : List String :=
  if x ∈ acc then acc else acc ++ [x]

/-- Python `l[-n:]`: the last `n` elements. -/
def lastN {α : Type} (n : Nat) (l : List α) : List α :=
  l.drop (l.length - n)

/-! ## Recommendation engine (`ai_models/recommendation_engine 2.py`)

Data model: one educational content item (a Firestore document), the user
profile and the 30-day engagement record returned by
`firestore_client.get_user_analytics` (whose `conversation_data` entries
contribute their `content` strings). -/

structure ContentItem where
  contentId : Nat
  category : String
  keywords : List String
  difficultyLevel : String
  contentQualityScore : ℚ
  /-- Age of the item in days (`(utcnow - created_at).days`); `none` models
  a missing or unparsable `created_at`. -/
  createdDaysOld : Option Nat
deriving DecidableEq, Repr

structure UserProfile where
  interests : List String
  experienceLevel : String
deriving DecidableEq, Repr

/-- The engagement record; each element of `conversationData` is the
`content` string of one conversation document. -/
structure Engagement where
  conversationData : List String
deriving DecidableEq, Repr

/-- `RECOMMENDATION_WEIGHTS` from `config/model_config.py`. -/
def weightUserInterests : ℚ := 3/10
def weightUserExperienceLevel : ℚ := 25/100
def weightContentPopularity : ℚ := 2/10
def weightContentFreshness : ℚ := 15/100
def weightUserEngagement : ℚ := 1/10

/-- `_calculate_interest_score`: category match weighted 0.7 plus a keyword
score weighted 0.3, where the keyword score divides the number of matching
content keywords by the number of *user interests* (not content keywords)
and caps at 1. -/
def calculateInterestScore (content : ContentItem) (profile : UserProfile) : ℚ :=
  let userInterests := profile.interests
  if userInterests.isEmpty then 1/2
  else
    let categoryMatch : ℚ := if content.category ∈ userInterests then 1 else 0
    let loweredInterests := userInterests.map lowerStr
    let keywordMatches : Nat :=
      (content.keywords.filter (fun k => loweredInterests.contains (lowerStr k))).length
    let keywordScore : ℚ := min ((keywordMatches : ℚ) / (userInterests.length : ℚ)) 1
    categoryMatch * (7/10) + keywordScore * (3/10)

/-- The `experience_levels` mapping (`.get(x, 1)` defaults to 1). -/
def experienceLevelNum (s : String) : Nat :=
  if s = "beginner" then 1
  else if s = "intermediate" then 2
  else if s = "advanced" then 3
  else 1

/-- `_calculate_experience_score`. -/
def calculateExperienceScore (content : ContentItem) (profile : UserProfile) : ℚ :=
  let u := experienceLevelNum profile.experienceLevel
  let c := experienceLevelNum content.difficultyLevel
  if c = u then 1
  else if c = u + 1 then 8/10
  else if c + 1 = u then 6/10
  else if c > u + 1 then 2/10
  else 4/10

/-- `_calculate_popularity_score`: quality score normalized to `[0,1]`. -/
def calculatePopularityScore (content : ContentItem) : ℚ :=
  content.contentQualityScore / 10

/-- `_calculate_freshness_score`: step function of the age in days. -/
def calculateFreshnessScore (content : ContentItem) : ℚ :=
  match content.createdDaysOld with
  | none => 1/2
  | some d =>
    if d < 7 then 1
    else if d < 30 then 8/10
    else if d < 90 then 6/10
    else if d < 365 then 4/10
    else 2/10

/-- `_calculate_engagement_score`: `none` models the empty analytics dict
(the `if not user_engagement` branch); otherwise 0.3 per conversation
mentioning the category and 0.1 per keyword mention, capped at 1. -/
def calculateEngagementScore (content : ContentItem)
    (userEngagement : Option Engagement) : ℚ :=
  match userEngagement with
  | none => 1/2
  | some e =>
    let score := e.conversationData.foldl
      (fun acc conv =>
        let c := lowerStr conv
        let acc := if strContains c (lowerStr content.category) then acc + 3/10 else acc
        content.keywords.foldl
          (fun acc k => if strContains c (lowerStr k) then acc + 1/10 else acc) acc)
      0
    min score 1

/-- `_calculate_recommendation_score`: weighted sum of the five factors,
capped at 1. -/
def calculateRecommendationScore (content : ContentItem) (profile : UserProfile)
    (engagement : Option Engagement) : ℚ :=
  let total :=
    calculateInterestScore content profile * weightUserInterests
    + calculateExperienceScore content profile * weightUserExperienceLevel
    + calculatePopularityScore content * weightContentPopularity
    + calculateFreshnessScore content * weightContentFreshness
    + calculateEngagementScore content engagement * weightUserEngagement
  min total 1

/-- `_get_recommendation_reason`: at most the first two applicable reasons. -/
def getRecommendationReason (content : ContentItem) (profile : UserProfile) : String :=
  let reasons : List String := []
  let reasons :=
    if content.category ∈ profile.interests then
      reasons ++ ["matches your interest in " ++ content.category]
    else reasons
  let reasons :=
    if content.difficultyLevel = profile.experienceLevel then
      reasons ++ ["perfect for your " ++ profile.experienceLevel ++ " level"]
    else if content.difficultyLevel = "beginner" ∧ profile.experienceLevel = "intermediate" then
      reasons ++ ["great for building fundamentals"]
    else reasons
  let reasons :=
    if content.contentQualityScore ≥ 8 then
      reasons ++ ["high-quality educational content"]
    else reasons
  let reasons := if reasons.isEmpty then ["relevant to your learning goals"] else reasons
  "Recommended because it " ++ joinWith ", " (reasons.take 2)

/-- One entry of the scored recommendation list. -/
structure ScoredContent where
  content : ContentItem
  score : ℚ
  recommendationReason : String
deriving DecidableEq, Repr

/-- Stable insertion step for a descending sort by score: an element goes in
front of the first entry whose score it reaches.  Python's
`list.sort(key=..., reverse=True)` is a stable descending sort, and a stable
sort's output is uniquely determined by the comparator, so this insertion
sort computes exactly the list the Python sort produces. -/
def insertDesc (x : ScoredContent) : List ScoredContent → List ScoredContent
  | [] => [x]
  | y :: ys => if x.score ≥ y.score then x :: y :: ys else y :: insertDesc x ys

/-- Stable descending sort by score (`scored_content.sort(key=..., reverse=True)`). -/
def sortByScoreDesc (l : List ScoredContent) : List ScoredContent :=
  l.foldr insertDesc []

/-- `_get_default_recommendations`: each item of the store's response (the
`category="basics"` beginner query) becomes a fixed-score entry. -/
def defaultRecommendations (defaultContent : List ContentItem) : List ScoredContent :=
  defaultContent.map fun c =>
    ⟨c, 7/10, "Popular beginner content to get you started"⟩

/-- The scoring loop of `_generate_recommendations`: items scoring at most
0.3 are dropped outright, the rest become scored entries in content-list
order. -/
def scoredCandidates (allContent : List ContentItem) (profile : UserProfile)
    (engagement : Option Engagement) : List ScoredContent :=
  allContent.filterMap fun c =>
    let s := calculateRecommendationScore c profile engagement
    if s > 3/10 then some ⟨c, s, getRecommendationReason c profile⟩ else none

/-- `_generate_recommendations`: `allContent` is the store's response to
`get_educational_content(limit=100)` and `defaultContent` the response used
by the fallback.  Items scoring at most 0.3 are dropped, the rest sorted by
descending score (stable), and the top `limit` returned. -/
def generateRecommendations (allContent defaultContent : List ContentItem)
    (profile : UserProfile) (engagement : Option Engagement) (limit : Nat) :
    List ScoredContent :=
  if allContent.isEmpty then defaultRecommendations defaultContent
  else (sortByScoreDesc (scoredCandidates allContent profile engagement)).take limit

/-! ## Vector search (`ai_models/rag_system/vector_search.py`)

A raw vector-store hit carries an id, the document text, a metadata dict
and a distance; relevance is `1 - distance`.  The store's response to
`vector_store.search_similar` is an explicit parameter; a raised backend
exception is `Except.error` and is caught where the Python `try` sits. -/

structure SearchResult where
  resultId : String
  text : String
  metadata : List (String × String)
  distance : ℚ
deriving DecidableEq, Repr

/-- `metadata.get(k, "")` on the (insertion-ordered) metadata dict. -/
def metaGet (m : List (String × String)) (k : String) : String :=
  match m.find? (fun p => p.1 = k) with
  | some p => p.2
  | none => ""

/-- A filter value: `_apply_filters` accepts a scalar or a list per key. -/
inductive FilterValue where
  | single : String → FilterValue
  | several : List String → FilterValue
deriving DecidableEq, Repr

/-- One result matches the filters (AND semantics; a key absent from the
metadata imposes no constraint, exactly as in `_apply_filters`). -/
def matchesFilters (filters : List (String × FilterValue)) (r : SearchResult) : Bool :=
  filters.all fun kv =>
    match r.metadata.find? (fun p => p.1 = kv.1) with
    | none => true
    | some p =>
      match kv.2 with
      | .single s => p.2 = s
      | .several l => l.contains p.2

/-- `_apply_filters`. -/
def applyFilters (results : List SearchResult)
    (filters : List (String × FilterValue)) : List SearchResult :=
  results.filter (matchesFilters filters)

/-- `_calculate_similarity`: weighted metadata agreement on category (0.5),
difficulty (0.3) and source (0.2). -/
def calculateSimilarity (r1 r2 : SearchResult) : ℚ :=
  let categorySim : ℚ :=
    if metaGet r1.metadata "category" = metaGet r2.metadata "category" then 1 else 0
  let difficultySim : ℚ :=
    if metaGet r1.metadata "difficulty_level" = metaGet r2.metadata "difficulty_level" then 1 else 0
  let sourceSim : ℚ :=
    if metaGet r1.metadata "source" = metaGet r2.metadata "source" then 1 else 0
  categorySim * (5/10) + difficultySim * (3/10) + sourceSim * (2/10)

/-- The MMR objective for one candidate against the already selected list:
`relevance - diversity_threshold * max_similarity`. -/
def mmrScore (dt : ℚ) (selected : List SearchResult) (c : SearchResult) : ℚ :=
  let relevance := 1 - c.distance
  let maxSim := selected.foldl (fun m s => max m (calculateSimilarity c s)) 0
  relevance - dt * maxSim

/-- The best-candidate scan of `_select_mmr_results`: running best score
starts at `-1`, running best index at `0`, and only a strictly larger score
replaces the incumbent (so the earliest maximum wins). -/
def bestIndexGo (dt : ℚ) (selected : List SearchResult) :
    List SearchResult → ℚ → Nat → Nat → Nat
  | [], _, _, bestIdx => bestIdx
  | c :: cs, bestScore, i, bestIdx =>
    let score := mmrScore dt selected c
    if score > bestScore then bestIndexGo dt selected cs score (i + 1) i
    else bestIndexGo dt selected cs bestScore (i + 1) bestIdx

/-- Index of the candidate maximizing the MMR objective. -/
def bestIndex (dt : ℚ) (selected remaining : List SearchResult) : Nat :=
  bestIndexGo dt selected remaining (-1) 0 0

/-- The `while len(selected) < limit and remaining` loop.  The fuel starts
at `remaining.length`; every iteration pops exactly one candidate, so the
fuel never runs out on the wrapper's call. -/
def mmrLoop (dt : ℚ) (limit : Nat) :
    Nat → List SearchResult → List SearchResult → List SearchResult
  | _, selected, [] => selected
  | 0, selected, _ :: _ => selected
  | fuel + 1, selected, r :: rs =>
    if selected.length < limit then
      let idx := bestIndex dt selected (r :: rs)
      let best := (r :: rs).getD idx r
      let rest := (r :: rs).eraseIdx idx
      mmrLoop dt limit fuel (selected ++ [best]) rest
    else selected

/-- `_select_mmr_results`: a pool no larger than the limit is returned
whole; otherwise the greedy MMR loop starts from the pool's head. -/
def selectMmrResults (dt : ℚ) (results : List SearchResult) (limit : Nat) :
    List SearchResult :=
  if results.length ≤ limit then results
  else
    match results with
    | [] => []
    | r :: rest => mmrLoop dt limit rest.length [r] rest

/-- `_similarity_search`: the store response (or its exception), then the
optional filters, then truncation to `limit`.  `none` filters model the
falsy `filters` argument. -/
def similaritySearch (storeResults : Except String (List SearchResult))
    (filters : Option (List (String × FilterValue))) (limit : Nat) :
    List SearchResult :=
  match storeResults with
  | .error _ => []
  | .ok results =>
    let results :=
      match filters with
      | some fs => applyFilters results fs
      | none => results
    results.take limit

/-- `_mmr_search`: oversized pool from the store, optional filters, then
greedy MMR selection. -/
def mmrSearch (dt : ℚ) (storeResults : Except String (List SearchResult))
    (filters : Option (List (String × FilterValue))) (limit : Nat) :
    List SearchResult :=
  match storeResults with
  | .error _ => []
  | .ok results =>
    let results :=
      match filters with
      | some fs => applyFilters results fs
      | none => results
    selectMmrResults dt results limit

/-- `VECTOR_SEARCH_CONFIG` from `config/model_config.py`. -/
structure VectorSearchConfig where
  similarityThreshold : ℚ
  maxResults : Nat
  searchType : String
  mmrDiversityThreshold : ℚ
deriving DecidableEq, Repr

def vectorSearchConfig : VectorSearchConfig :=
  { similarityThreshold := 7/10
    maxResults := 5
    searchType := "similarity"
    mmrDiversityThreshold := 3/10 }

/-- `search_educational_content` (cache-miss path; the cache only ever
holds previously filtered outputs): dispatch on the configured search type,
then drop every result whose distance exceeds
`1 - similarity_threshold`, i.e. whose relevance falls below the
threshold. -/
def searchEducationalContent (cfg : VectorSearchConfig)
    (storeResults : Except String (List SearchResult))
    (filters : Option (List (String × FilterValue))) (limit : Option Nat) :
    List SearchResult :=
  let lim := limit.getD cfg.maxResults
  let results :=
    if cfg.searchType = "similarity" then similaritySearch storeResults filters lim
    else if cfg.searchType = "mmr" then
      mmrSearch cfg.mmrDiversityThreshold storeResults filters lim
    else similaritySearch storeResults filters lim
  results.filter (fun r => decide (r.distance ≤ 1 - cfg.similarityThreshold))

/-! ## Conversation manager (`chatbot/conversation_manager.py`)

Derived conversation context: dominant topic by keyword vote, user
interests by pattern match, key points from assistant sentences, and the
summary regenerated only past ten messages. -/

structure Message where
  role : String
  content : String
  timestamp : String
deriving DecidableEq, Repr

/-- The `topics` table of `_analyze_conversation_topic`, in source order
(Python dict literals iterate in insertion order). -/
def topicKeywordTable : List (String × List String) :=
  [ ("stocks", ["stock", "stocks", "share", "shares", "equity", "equities"])
  , ("bonds", ["bond", "bonds", "fixed income", "treasury", "corporate bond"])
  , ("etfs", ["etf", "etfs", "exchange traded fund", "index fund"])
  , ("portfolio", ["portfolio", "diversification", "asset allocation", "balance"])
  , ("risk", ["risk", "risky", "safe", "volatility", "uncertainty"])
  , ("savings", ["save", "saving", "savings", "budget", "budgeting"])
  , ("retirement", ["retirement", "401k", "ira", "pension", "future"])
  , ("market", ["market", "trading", "buy", "sell", "price", "value"])
  , ("education", ["learn", "learning", "understand", "explain", "teach"]) ]

/-- `_analyze_conversation_topic`: count keyword hits in the joined,
lowercased text of the last five messages; the first topic (in table order)
with the strictly greatest positive count wins, matching Python's
`max(topic_scores, key=topic_scores.get)` over the insertion-ordered dict. -/
def analyzeConversationTopic (messages : List Message) : String :=
  if messages.isEmpty then ""
  else
    let recentText := lowerStr (joinWith " " ((lastN 5 messages).map (·.content)))
    let scores := topicKeywordTable.map fun tk =>
      (tk.1, (tk.2.filter (fun k => strContains recentText k)).length)
    let positive := scores.filter (fun p => p.2 > 0)
    match positive with
    | [] => "general"
    | p :: ps => (ps.foldl (fun best q => if q.2 > best.2 then q else best) p).1

/-- The `interest_keywords` list of `_extract_user_interests`. -/
def interestKeywordTable : List String :=
  [ "interested in", "want to learn about", "curious about"
  , "like", "love", "enjoy", "fascinated by", "want to know more about" ]

/-- `_extract_user_interests`: for each user message and each indicator
phrase contained in its lowercased content, take the first three words
after the phrase's first occurrence; accumulate as a set (modelled with
insertion-ordered deduplication) and keep at most five. -/
def extractUserInterests (messages : List Message) : List String :=
  let userMessages := messages.filter (·.role = "user")
  let interests := userMessages.foldl
    (fun acc msg =>
      let content := lowerStr msg.content
      interestKeywordTable.foldl
        (fun acc kw =>
          if strContains content kw then
            match strSplitOn content kw with
            | _ :: p1 :: _ =>
              insertNew acc (joinWith " " ((pyWords (strTrim p1)).take 3))
            | _ => acc
          else acc)
        acc)
    []
  interests.take 5

/-- The key-point indicator words of `_extract_key_points`. -/
def keyIndicatorTable : List String := ["important", "key", "remember", "note"]

/-- `_extract_key_points`: from each assistant message whose raw content
contains an indicator, keep every period-split sentence whose lowercased
text contains an indicator (stripped), up to five points. -/
def extractKeyPoints (messages : List Message) : List String :=
  let assistantMessages := messages.filter (·.role = "assistant")
  let keyPoints := assistantMessages.foldl
    (fun acc msg =>
      if keyIndicatorTable.any (fun ind => strContains msg.content ind) then
        (strSplitOn msg.content ".").foldl
          (fun acc s =>
            if keyIndicatorTable.any (fun ind => strContains (lowerStr s) ind) then
              acc ++ [strTrim s]
            else acc)
          acc
      else acc)
    []
  keyPoints.take 5

/-- `_generate_conversation_summary` with the configured
`conversation_summary_length` as a parameter (200 in
`CONVERSATION_CONFIG`): join the applicable parts, and when the joined
summary exceeds the configured length, truncate to that length and append
the three-character ellipsis `"..."`. -/
def generateConversationSummary (summaryLength : Nat) (messages : List Message) :
    String :=
  if messages.isEmpty then ""
  else
    let topics := analyzeConversationTopic messages
    let interests := extractUserInterests messages
    let keyPoints := extractKeyPoints messages
    let parts : List String := []
    let parts :=
      if topics ≠ "" ∧ topics ≠ "general" then parts ++ ["Discussed " ++ topics]
      else parts
    let parts :=
      if ¬ interests.isEmpty then
        parts ++ ["User interested in " ++ joinWith ", " (interests.take 2)]
      else parts
    let parts :=
      if ¬ keyPoints.isEmpty then
        parts ++ ["Key points: " ++ strTake (keyPoints.headD "") 100 ++ "..."]
      else parts
    let summary := joinWith ". " parts
    if summary.length > summaryLength then strTake summary summaryLength ++ "..."
    else summary

/-- The conversation record fields touched by `_update_conversation_context`. -/
structure Conversation where
  messages : List Message
  topic : String
  currentTopic : String
  userInterests : List String
  keyPoints : List String
  summary : String
deriving DecidableEq, Repr

/-- `_update_conversation_context` with the configured
`max_context_messages` (10) and summary length (200) as parameters:
recompute the derived fields from the last `maxContextMessages` messages,
and regenerate the summary only when the conversation holds more than ten
messages. -/
def updateConversationContext (maxContextMessages summaryLength : Nat)
    (conv : Conversation) : Conversation :=
  if conv.messages.isEmpty then conv
  else
    let recent := lastN maxContextMessages conv.messages
    let currentTopic := analyzeConversationTopic recent
    let interests := extractUserInterests recent
    let keyPoints := extractKeyPoints recent
    let conv :=
      { conv with
        topic := currentTopic
        currentTopic := currentTopic
        userInterests := interests
        keyPoints := keyPoints }
    if conv.messages.length > 10 then
      { conv with summary := generateConversationSummary summaryLength recent }
    else conv

/-! ## Context retriever (`ai_models/rag_system/context_retriever.py`)

`retrieve_context` caches the whole bundle under a key derived from the
query, the stringified user profile and the context type — the
conversation history does not enter the key.  The four sub-retrievals call
external collaborators and enter as an environment of response functions;
the gating heuristics, the conversation-context analysis and the
related-topics computation are pure and embedded from the source. -/

/-- `_is_market_related`. -/
def marketKeywordTable : List String :=
  [ "stock", "stocks", "price", "market", "trading", "buy", "sell"
  , "portfolio", "investment", "earnings", "dividend", "volume" ]

def isMarketRelated (query : String) : Bool :=
  marketKeywordTable.any (fun k => strContains (lowerStr query) k)

/-- `_is_news_related`. -/
def newsKeywordTable : List String :=
  [ "news", "update", "recent", "latest", "happening", "today"
  , "yesterday", "this week", "announcement", "report" ]

def isNewsRelated (query : String) : Bool :=
  newsKeywordTable.any (fun k => strContains (lowerStr query) k)

/-- The `investment_topics` list of `_retrieve_conversation_context`. -/
def investmentTopicTable : List String :=
  [ "stocks", "bonds", "etfs", "index funds", "diversification"
  , "risk", "portfolio", "savings", "budgeting", "compound interest" ]

/-- The dict returned by `_retrieve_conversation_context` for a non-empty
history. -/
structure ConversationContext where
  recentTopics : List String
  userInterests : List String
  currentFocus : String
  conversationLength : Nat
  lastMessageTime : String
deriving DecidableEq, Repr

/-- `_retrieve_conversation_context`: `none` models the empty dict returned
for an empty history; topic sets are modelled with insertion-ordered
deduplication. -/
def retrieveConversationContext (history : List Message) :
    Option ConversationContext :=
  if history.isEmpty then none
  else
    let recent := lastN 5 history
    let state := recent.foldl
      (fun (st : List String × List String × String) msg =>
        let content := lowerStr msg.content
        let found := investmentTopicTable.filter (fun t => strContains content t)
        let topics := st.1 ++ found
        let interests := found.foldl insertNew st.2.1
        let focus :=
          if strContains content "how" ∨ strContains content "what" then
            strTake content 100
          else st.2.2
        (topics, interests, focus))
      ([], [], "")
    some
      { recentTopics := state.1.foldl insertNew []
        userInterests := state.2.1
        currentFocus := state.2.2
        conversationLength := history.length
        lastMessageTime := ((recent.getLast?).map (·.timestamp)).getD "" }

/-- An educational context item as assembled by
`_retrieve_educational_context`; only the fields the aggregator's pure
logic reads are carried. -/
structure EduContextItem where
  itemId : String
  category : String
  keywords : List String
  content : String
deriving DecidableEq, Repr

/-- `_get_related_topics`: keywords and categories of the retrieved
educational content plus query-driven additions, capped at ten (set
modelled with insertion-ordered deduplication). -/
def getRelatedTopics (query : String) (edu : List EduContextItem) : List String :=
  let topics := edu.foldl
    (fun acc item =>
      let acc := item.keywords.foldl insertNew acc
      if item.category ≠ "" then insertNew acc item.category else acc)
    []
  let q := lowerStr query
  let topics :=
    if strContains q "stock" then
      ["portfolio", "diversification", "risk management"].foldl insertNew topics
    else if strContains q "bond" then
      ["fixed income", "interest rates", "risk"].foldl insertNew topics
    else if strContains q "etf" then
      ["index funds", "diversification", "low cost"].foldl insertNew topics
    else if strContains q "risk" then
      ["diversification", "asset allocation", "volatility"].foldl insertNew topics
    else topics
  topics.take 10

/-- A contextual recommendation entry (shape only; produced by the
external recommendation sub-retrieval). -/
structure RecContextItem where
  itemId : String
  title : String
deriving DecidableEq, Repr

/-- Responses of the external sub-retrievals (vector store, Firestore
market and news lookups, recommendation engine), keyed by the arguments
`retrieve_context` passes them. -/
structure RetrieverEnv where
  educational : String → Option UserProfile → List EduContextItem
  market : String → List String
  news : String → List String
  recommendations : UserProfile → String → List RecContextItem

/-- The `context_data` bundle assembled by `retrieve_context`. -/
structure ContextBundle where
  query : String
  retrievedAt : Nat
  contextType : String
  userProfile : Option UserProfile
  educationalContent : List EduContextItem
  marketData : List String
  newsArticles : List String
  conversationContext : Option ConversationContext
  relatedTopics : List String
  recommendations : List RecContextItem
deriving DecidableEq, Repr

/-- The cache key: `context:{hash(query)}:{hash(str(user_profile))}:{context_type}`.
Equal `(query, profile, context_type)` triples always hash to the same key,
which is the only direction the theorems below use; the conversation
history never enters the key. -/
def ContextKey : Type := String × Option UserProfile × String

instance : DecidableEq ContextKey := by
  unfold ContextKey
  exact inferInstance

/-- The context cache: entries of key, expiry instant and stored bundle,
newest first.  Times are seconds as `Nat`. -/
def ContextCache : Type := List (ContextKey × Nat × ContextBundle)

/-- `cache_manager.get`: the entry is returned only while
`expires_at > now` (strict, as in the in-memory fallback). -/
def cacheGet (cache : ContextCache) (key : ContextKey) (now : Nat) :
    Option ContextBundle :=
  match cache.find? (fun e => decide (e.1 = key) && decide (now < e.2.1)) with
  | some e => some e.2.2
  | none => none

/-- `cache_manager.set` with a TTL: newest entry shadows older ones. -/
def cacheSet (cache : ContextCache) (key : ContextKey) (bundle : ContextBundle)
    (expiresAt : Nat) : ContextCache :=
  (key, expiresAt, bundle) :: cache

/-- `retrieve_context`: on a cache hit return the stored bundle unchanged;
on a miss assemble the bundle — educational content for types
`educational`/`all`, market and news data gated by the keyword heuristics,
conversation context only when a history is present, related topics from
the educational content, recommendations only when a profile is present —
and cache it for 1800 seconds. -/
def retrieveContext (env : RetrieverEnv) (cache : ContextCache) (now : Nat)
    (query : String) (userProfile : Option UserProfile) (history : List Message)
    (contextType : String) : ContextBundle × ContextCache :=
  let key : ContextKey := (query, userProfile, contextType)
  match cacheGet cache key now with
  | some ctx => (ctx, cache)
  | none =>
    let edu :=
      if contextType = "educational" ∨ contextType = "all" then
        env.educational query userProfile
      else []
    let mkt :=
      if (contextType = "market" ∨ contextType = "all") ∧ isMarketRelated query then
        env.market query
      else []
    let nws :=
      if (contextType = "news" ∨ contextType = "all") ∧ isNewsRelated query then
        env.news query
      else []
    let convCtx :=
      if ¬ history.isEmpty then retrieveConversationContext history else none
    let related := getRelatedTopics query edu
    let recs :=
      match userProfile with
      | some p => env.recommendations p query
      | none => []
    let bundle : ContextBundle :=
      { query := query
        retrievedAt := now
        contextType := contextType
        userProfile := userProfile
        educationalContent := edu
        marketData := mkt
        newsArticles := nws
        conversationContext := convCtx
        relatedTopics := related
        recommendations := recs }
    (bundle, cacheSet cache key bundle (now + 1800))

/-- `RAG_CONFIG["chunk_size"]` from `config/model_config.py`. -/
def ragChunkSize : Nat := 1000

/-- `_chunk_content` with the configured chunk size as a parameter.  The
sentence-boundary cut is taken only when the break point clears 70% of the
chunk size (`break_point > chunk_size * 0.7`; at the configured size 1000
the float product is exactly 700, so the integer comparison below is
exact). -/
def chunkContent (chunkSize : Nat) (content : String) : String :=
  if content.length ≤ chunkSize then content
  else
    let chunk := strTake content chunkSize
    let breakPoint :=
      max (max (strRfind chunk '.') (strRfind chunk '?')) (strRfind chunk '!')
    if 10 * breakPoint > 7 * (chunkSize : Int) then
      strTake content (breakPoint.toNat + 1) ++ "..."
    else
      strTake content chunkSize ++ "..."

/-! ## Spec-side definitions

Definitions written from the specification's words, used to compare the
specified behaviour with the embedded source behaviour. -/

/-- From the spec: "0.7 × (category exact match ? 1 : 0) + 0.3 × (fraction
of content keywords present in user interests, i.e. matching keywords
divided by the number of content keywords)". -/
def specInterestScore (content : ContentItem) (profile : UserProfile) : ℚ :=
  let categoryMatch : ℚ := if content.category ∈ profile.interests then 1 else 0
  let loweredInterests := profile.interests.map lowerStr
  let keywordMatches : Nat :=
    (content.keywords.filter (fun k => loweredInterests.contains (lowerStr k))).length
  categoryMatch * (7/10) + ((keywordMatches : ℚ) / (content.keywords.length : ℚ)) * (3/10)

/-- The sentence terminator characters named by the spec. -/
def sentenceTerminators : List Char := ['.', '?', '!']

/-- Index of the last element satisfying `p`, or `none` when no element
does. -/
def lastIdxP (p : Char → Bool) : List Char → Option Nat
  | [] => none
  | c :: t =>
    match lastIdxP p t with
    | some j => some (j + 1)
    | none => if p c then some 0 else none

/-- From the spec: the position of "the last sentence terminator ('.', '?',
'!')" in a chunk, `none` when the chunk holds no terminator. -/
def lastTerminatorIdx (l : List Char) : Option Nat :=
  lastIdxP (fun c => decide (c ∈ sentenceTerminators)) l

/-- Maximum of two optional indices. -/
def optMax : Option Nat → Option Nat → Option Nat
  | none, b => b
  | a, none => a
  | some x, some y => some (max x y)

/-- An optional index as the `rfind`-style integer (`-1` for absent). -/
def optToInt : Option Nat → Int
  | none => -1
  | some j => (j : Int)

/-! ## Concrete instances used by the witnesses and counterexamples -/

/-- Scenario A's content item: category "stocks", beginner, quality 9,
created 2 days ago, no keywords. -/
def scenarioItem : ContentItem := ⟨1, "stocks", [], "beginner", 9, some 2⟩

/-- Scenario A's profile: interests ["stocks"], beginner. -/
def scenarioProfile : UserProfile := ⟨["stocks"], "beginner"⟩

/-- A user with no recorded activity: `get_user_analytics` returns the
(non-empty) analytics dict whose `conversation_data` list is empty. -/
def emptyHistoryEngagement : Option Engagement := some ⟨[]⟩

/-- Interest-score counterexample item: category matching nothing, a single
keyword "a". -/
def kwItem : ContentItem := ⟨2, "zzz", ["a"], "beginner", 5, some 2⟩

/-- Interest-score counterexample profile: two interests, one matching the
keyword. -/
def kwProfile : UserProfile := ⟨["a", "b"], "beginner"⟩

/-- Two content items identical except for their ids (equal composite
scores). -/
def tieItemLow : ContentItem := ⟨1, "stocks", [], "beginner", 9, some 2⟩
def tieItemHigh : ContentItem := ⟨2, "stocks", [], "beginner", 9, some 2⟩

/-- Search results for the MMR counterexamples. -/
def mmrSolo : SearchResult :=
  ⟨"a", "", [("category", "c1"), ("difficulty_level", "d"), ("source", "s")], 1/2⟩
def mmrDupA : SearchResult :=
  ⟨"x", "", [("category", "c1"), ("difficulty_level", "d"), ("source", "s")], 1/20⟩
def mmrDupB : SearchResult :=
  ⟨"x", "", [("category", "c1"), ("difficulty_level", "d"), ("source", "s")], 1/20⟩
def mmrOther : SearchResult :=
  ⟨"b", "", [("category", "c2"), ("difficulty_level", "e"), ("source", "t")], 1/2⟩

/-- Search results above and below the similarity threshold. -/
def hitNear : SearchResult :=
  ⟨"near", "", [("category", "c1"), ("difficulty_level", "d"), ("source", "s")], 1/10⟩
def hitFar : SearchResult :=
  ⟨"far", "", [("category", "c2"), ("difficulty_level", "e"), ("source", "t")], 1/2⟩

/-- The vector search configuration switched to MMR mode. -/
def mmrModeConfig : VectorSearchConfig :=
  { vectorSearchConfig with searchType := "mmr" }

/-- A 200-character word; an interest this long makes the raw summary
overflow the configured cap. -/
def longWord : String := String.mk (List.replicate 200 'x')

/-- A user message declaring an interest in the 200-character word. -/
def interestMsg : Message := ⟨"user", "interested in " ++ longWord, ""⟩

/-- A filler user message with no topic, interest or key-point markers. -/
def fillerMsg : Message := ⟨"user", "hello", ""⟩

/-- An 11-message conversation whose regenerated summary overflows the
200-character cap. -/
def overflowConv : Conversation :=
  ⟨List.replicate 10 fillerMsg ++ [interestMsg], "", "", [], [], ""⟩

/-- Content of 1006 characters whose only sentence terminator sits at index
5, well before 70% of the 1000-character chunk size. -/
def earlyDotContent : String := "aaaaa." ++ String.mk (List.replicate 1000 'b')

/-- An environment of external sub-retrieval responses for the context
retriever witnesses. -/
def emptyEnv : RetrieverEnv :=
  { educational := fun _ _ => []
    market := fun _ => []
    news := fun _ => []
    recommendations := fun _ _ => [] }

/-- A one-message conversation history. -/
def oneMsgHistory : List Message := [⟨"user", "tell me about stocks", "t1"⟩]

/-! ## Theorems -/

/-- C1: for a content item with category "stocks", difficulty "beginner",
quality score 9, created 2 days ago, scored against a profile with
interests ["stocks"], experience "beginner" and an empty engagement
history, the engagement factor is 0, the weighted contributions are 0.21 +
0.25 + 0.18 + 0.15, the composite score is 0.79, and the item is included
in the output because 0.79 > 0.3. -/
theorem scenarioA_composite_inclusion :
    calculateEngagementScore scenarioItem emptyHistoryEngagement = 0
    ∧ calculateInterestScore scenarioItem scenarioProfile * weightUserInterests = 21/100
    ∧ calculateExperienceScore scenarioItem scenarioProfile * weightUserExperienceLevel
        = 25/100
    ∧ calculatePopularityScore scenarioItem * weightContentPopularity = 18/100
    ∧ calculateFreshnessScore scenarioItem * weightContentFreshness = 15/100
    ∧ calculateRecommendationScore scenarioItem scenarioProfile emptyHistoryEngagement
        = 79/100
    ∧ ((3 : ℚ)/10 < 79/100)
    ∧ (generateRecommendations [scenarioItem] [] scenarioProfile emptyHistoryEngagement
        10).map (·.content) = [scenarioItem] := by
  with_unfolding_all decide

/-- C2 counterexample: on an item with one keyword "a" and a profile with
interests ["a", "b"], the code's interest factor is 0.15 (it divides the
single keyword match by the two interests), while the claimed formula
(dividing by the one content keyword) gives 0.30. -/
theorem interestScore_deviates_from_spec :
    calculateInterestScore kwItem kwProfile = 3/20
    ∧ specInterestScore kwItem kwProfile = 3/10
    ∧ calculateInterestScore kwItem kwProfile ≠ specInterestScore kwItem kwProfile := by
  refine ⟨by with_unfolding_all decide, by with_unfolding_all decide, by with_unfolding_all decide⟩

/-- C2 amended: for every content item and profile with a non-empty
interest list, the interest factor is 0.7 × (category exact match) + 0.3 ×
min(matching keywords ÷ number of *user interests*, 1) — the divisor is the
interest count, not the content keyword count, and the fraction is capped
at 1. -/
theorem interestScore_formula (content : ContentItem) (profile : UserProfile)
    (h : profile.interests ≠ []) :
    calculateInterestScore content profile =
      (if content.category ∈ profile.interests then (1 : ℚ) else 0) * (7/10)
      + min (((content.keywords.countP
            fun k => (profile.interests.map lowerStr).contains (lowerStr k)) : ℚ)
          / (profile.interests.length : ℚ)) 1 * (3/10) := by
  simp only [calculateInterestScore, List.isEmpty_iff, h, if_false,
    List.countP_eq_length_filter]

/-- C2 witness: the amended formula evaluated on the counterexample pair. -/
theorem interestScore_formula_witness :
    kwProfile.interests ≠ []
    ∧ calculateInterestScore kwItem kwProfile =
      (if kwItem.category ∈ kwProfile.interests then (1 : ℚ) else 0) * (7/10)
      + min (((kwItem.keywords.countP
            fun k => (kwProfile.interests.map lowerStr).contains (lowerStr k)) : ℚ)
          / (kwProfile.interests.length : ℚ)) 1 * (3/10) :=
  ⟨by with_unfolding_all decide, interestScore_formula kwItem kwProfile (by with_unfolding_all decide)⟩

/-- C4: in similarity mode, every result returned by
`search_educational_content` has relevance `1 - distance` at least the
configured similarity threshold, and any result whose relevance falls
below the threshold is absent from the output. -/
theorem similarity_results_meet_threshold (cfg : VectorSearchConfig)
    (store : Except String (List SearchResult))
    (filters : Option (List (String × FilterValue))) (limit : Option Nat)
    (_hmode : cfg.searchType = "similarity") :
    (∀ r ∈ searchEducationalContent cfg store filters limit,
        cfg.similarityThreshold ≤ 1 - r.distance)
    ∧ ∀ r : SearchResult, 1 - r.distance < cfg.similarityThreshold →
        r ∉ searchEducationalContent cfg store filters limit := by
  constructor
  · intro r hr
    simp only [searchEducationalContent, List.mem_filter,
      decide_eq_true_eq] at hr
    linarith [hr.2]
  · intro r hlt hr
    simp only [searchEducationalContent, List.mem_filter,
      decide_eq_true_eq] at hr
    linarith [hr.2]

/-- C4 witness: with the default configuration, a pool holding one result
at distance 0.1 and one at distance 0.5 yields only the near result, and
the threshold bound instantiates on that output. -/
theorem similarity_results_meet_threshold_witness :
    vectorSearchConfig.searchType = "similarity"
    ∧ searchEducationalContent vectorSearchConfig (.ok [hitNear, hitFar]) none none
        = [hitNear]
    ∧ ∀ r ∈ searchEducationalContent vectorSearchConfig (.ok [hitNear, hitFar])
        none none, vectorSearchConfig.similarityThreshold ≤ 1 - r.distance :=
  ⟨rfl, by with_unfolding_all decide,
    (similarity_results_meet_threshold vectorSearchConfig (.ok [hitNear, hitFar])
      none none rfl).1⟩

/-- C8: when the vector store (or the embedding layer beneath it) raises,
the educational content search returns the empty list — the error value is
consumed and never propagated. -/
theorem search_error_yields_empty (cfg : VectorSearchConfig) (e : String)
    (filters : Option (List (String × FilterValue))) (limit : Option Nat) :
    searchEducationalContent cfg (.error e) filters limit = [] := by
  simp only [searchEducationalContent]
  split
  · simp [similaritySearch]
  · split
    · simp [mmrSearch]
    · simp [similaritySearch]

/-- C10: in MMR mode the similarity-threshold filter is applied on top of
the diversity re-ranking — every returned result has relevance at least
the threshold, and any MMR-selected item whose relevance falls below the
threshold is discarded from the final output. -/
theorem mmr_results_meet_threshold (cfg : VectorSearchConfig)
    (store : Except String (List SearchResult))
    (filters : Option (List (String × FilterValue))) (limit : Option Nat)
    (_hmode : cfg.searchType = "mmr") :
    (∀ r ∈ searchEducationalContent cfg store filters limit,
        cfg.similarityThreshold ≤ 1 - r.distance)
    ∧ ∀ r ∈ mmrSearch cfg.mmrDiversityThreshold store filters
        (limit.getD cfg.maxResults),
        1 - r.distance < cfg.similarityThreshold →
        r ∉ searchEducationalContent cfg store filters limit := by
  constructor
  · intro r hr
    simp only [searchEducationalContent, List.mem_filter,
      decide_eq_true_eq] at hr
    linarith [hr.2]
  · intro r _ hlt hr
    simp only [searchEducationalContent, List.mem_filter,
      decide_eq_true_eq] at hr
    linarith [hr.2]

/-- C10 witness: in MMR mode with limit 2, the far result survives MMR
selection but is discarded by the threshold filter. -/
theorem mmr_results_meet_threshold_witness :
    mmrModeConfig.searchType = "mmr"
    ∧ hitFar ∈ mmrSearch mmrModeConfig.mmrDiversityThreshold
        (.ok [hitNear, hitFar]) none ((some 2).getD mmrModeConfig.maxResults)
    ∧ 1 - hitFar.distance < mmrModeConfig.similarityThreshold
    ∧ hitFar ∉ searchEducationalContent mmrModeConfig (.ok [hitNear, hitFar])
        none (some 2) :=
  ⟨rfl, by with_unfolding_all decide, by with_unfolding_all decide,
    (mmr_results_meet_threshold mmrModeConfig (.ok [hitNear, hitFar]) none
      (some 2) rfl).2 hitFar (by with_unfolding_all decide) (by with_unfolding_all decide)⟩

/-- The scan of `bestIndexGo` never leaves the candidate range: if the
incumbent index is in range, so is the result. -/
theorem bestIndexGo_lt (dt : ℚ) (sel : List SearchResult) (cs : List SearchResult) :
    ∀ (s : ℚ) (i b : Nat), b < i + cs.length →
      bestIndexGo dt sel cs s i b < i + cs.length := by
  induction cs with
  | nil => intro s i b h; simpa [bestIndexGo] using h
  | cons c t ih =>
    intro s i b h
    simp only [bestIndexGo, List.length_cons]
    split
    · have h2 := ih (mmrScore dt sel c) (i + 1) i (by omega)
      omega
    · have h2 := ih s (i + 1) b (by simp only [List.length_cons] at h; omega)
      omega

/-- The selected MMR index is always a valid index of the remaining pool. -/
theorem bestIndex_lt (dt : ℚ) (sel : List SearchResult) (r : SearchResult)
    (rs : List SearchResult) : bestIndex dt sel (r :: rs) < (r :: rs).length := by
  have h := bestIndexGo_lt dt sel (r :: rs) (-1) 0 0 (by simp)
  simpa [bestIndex] using h

/-- Removing the element at a valid index and re-consing it in front is a
permutation of the original list. -/
theorem getD_cons_eraseIdx_perm {α : Type} (d : α) (l : List α) :
    ∀ i : Nat, i < l.length → (l.getD i d :: l.eraseIdx i).Perm l := by
  induction l with
  | nil => intro i h; simp at h
  | cons x t ih =>
    intro i h
    cases i with
    | zero => simp
    | succ j =>
      have hj : j < t.length := by simpa using h
      simp only [List.getD_cons_succ, List.eraseIdx_cons_succ]
      exact (List.Perm.swap x (t.getD j d) (t.eraseIdx j)).trans ((ih j hj).cons x)

/-- The MMR loop never grows the selection past the limit. -/
theorem mmrLoop_length_le (dt : ℚ) (limit : Nat) :
    ∀ (fuel : Nat) (sel rem : List SearchResult), sel.length ≤ limit →
      (mmrLoop dt limit fuel sel rem).length ≤ limit := by
  intro fuel
  induction fuel with
  | zero =>
    intro sel rem h
    cases rem <;> simpa [mmrLoop] using h
  | succ f ih =>
    intro sel rem h
    cases rem with
    | nil => simpa [mmrLoop] using h
    | cons r rs =>
      simp only [mmrLoop]
      split
      · next hlt =>
        exact ih _ _ (by simp only [List.length_append, List.length_singleton]; omega)
      · exact h

/-- The MMR loop draws candidates without replacement: if the ids of the
selection and the pool are jointly duplicate-free, so are the ids of the
loop's output. -/
theorem mmrLoop_nodup (dt : ℚ) (limit : Nat) :
    ∀ (fuel : Nat) (sel rem : List SearchResult),
      ((sel ++ rem).map SearchResult.resultId).Nodup →
      ((mmrLoop dt limit fuel sel rem).map SearchResult.resultId).Nodup := by
  intro fuel
  induction fuel with
  | zero =>
    intro sel rem h
    rw [List.map_append] at h
    cases rem <;> simpa [mmrLoop] using h.of_append_left
  | succ f ih =>
    intro sel rem h
    cases rem with
    | nil =>
      rw [List.map_append] at h
      simpa [mmrLoop] using h.of_append_left
    | cons r rs =>
      simp only [mmrLoop]
      split
      · apply ih
        have hperm : (((r :: rs).getD (bestIndex dt sel (r :: rs)) r) ::
            (r :: rs).eraseIdx (bestIndex dt sel (r :: rs))).Perm (r :: rs) :=
          getD_cons_eraseIdx_perm r (r :: rs) _ (bestIndex_lt dt sel r rs)
        have hperm2 := (hperm.append_left sel).map SearchResult.resultId
        refine (List.Perm.nodup_iff ?_).mpr h
        simpa [List.append_assoc] using hperm2
      · rw [List.map_append] at h
        exact h.of_append_left

/-- C3 counterexample: with a requested limit of 0 and a single candidate
the selection still returns one result (the claimed length bound fails),
and with a pool holding two results sharing a `content_id` the selection
returns that id twice (the claimed uniqueness fails). -/
theorem mmr_limit_and_dedup_counterexample :
    0 < (selectMmrResults (3/10) [mmrSolo] 0).length
    ∧ ¬ (((selectMmrResults (3/10) [mmrDupA, mmrDupB, mmrOther] 2).map
        SearchResult.resultId).Nodup) := by
  with_unfolding_all decide

/-- C3 amended: for every candidate list whose `content_id`s are pairwise
distinct and every requested limit of at least 1, the MMR selection
returns a sequence with no repeated `content_id` whose length never
exceeds the limit.  (The source deduplicates by drawing candidates without
replacement, so duplicates already present in the pool survive, and a
limit of 0 still yields one result because the loop seeds the selection
with the pool's head before checking the bound.) -/
theorem mmr_nodup_and_length_le_limit (dt : ℚ) (results : List SearchResult)
    (limit : Nat) (hlim : 1 ≤ limit)
    (hnd : (results.map SearchResult.resultId).Nodup) :
    ((selectMmrResults dt results limit).map SearchResult.resultId).Nodup
    ∧ (selectMmrResults dt results limit).length ≤ limit := by
  unfold selectMmrResults
  split
  · next hle => exact ⟨hnd, hle⟩
  · next hgt =>
    cases results with
    | nil => simp
    | cons r rs =>
      refine ⟨?_, ?_⟩
      · exact mmrLoop_nodup dt limit rs.length [r] rs (by simpa using hnd)
      · exact mmrLoop_length_le dt limit rs.length [r] rs (by simpa using hlim)

/-- C3 witness: the amended invariant instantiated on a two-candidate pool
with distinct ids and limit 1. -/
theorem mmr_nodup_and_length_le_limit_witness :
    (1 ≤ 1)
    ∧ (([mmrSolo, mmrOther].map SearchResult.resultId).Nodup)
    ∧ ((selectMmrResults (3/10) [mmrSolo, mmrOther] 1).map
        SearchResult.resultId).Nodup
    ∧ (selectMmrResults (3/10) [mmrSolo, mmrOther] 1).length ≤ 1 :=
  ⟨le_refl 1, by with_unfolding_all decide,
    (mmr_nodup_and_length_le_limit (3/10) [mmrSolo, mmrOther] 1 (le_refl 1)
      (by with_unfolding_all decide)).1,
    (mmr_nodup_and_length_le_limit (3/10) [mmrSolo, mmrOther] 1 (le_refl 1)
      (by with_unfolding_all decide)).2⟩

/-- Membership in an insertion step. -/
theorem mem_insertDesc (a x : ScoredContent) (m : List ScoredContent) :
    a ∈ insertDesc x m ↔ a = x ∨ a ∈ m := by
  induction m with
  | nil => simp [insertDesc]
  | cons y ys ih =>
    simp only [insertDesc]
    split
    · simp [List.mem_cons]
    · simp [List.mem_cons, ih]
      tauto

/-- Inserting into a descending-sorted list keeps it descending-sorted. -/
theorem insertDesc_sorted (x : ScoredContent) (m : List ScoredContent)
    (h : m.Sorted (fun a b => b.score ≤ a.score)) :
    (insertDesc x m).Sorted (fun a b => b.score ≤ a.score) := by
  induction m with
  | nil => simp [insertDesc]
  | cons y ys ih =>
    rw [List.sorted_cons] at h
    obtain ⟨hy, hys⟩ := h
    simp only [insertDesc]
    split
    · next hge =>
      rw [List.sorted_cons]
      refine ⟨?_, by rw [List.sorted_cons]; exact ⟨hy, hys⟩⟩
      intro b hb
      rw [List.mem_cons] at hb
      rcases hb with rfl | hb
      · exact hge
      · exact le_trans (hy b hb) hge
    · next hlt =>
      rw [List.sorted_cons]
      refine ⟨?_, ih hys⟩
      intro b hb
      rw [mem_insertDesc] at hb
      rcases hb with rfl | hb
      · exact le_of_not_le hlt
      · exact hy b hb

/-- The stable insertion sort is descending-sorted. -/
theorem sortByScoreDesc_sorted (l : List ScoredContent) :
    (sortByScoreDesc l).Sorted (fun a b => b.score ≤ a.score) := by
  unfold sortByScoreDesc
  induction l with
  | nil => simp
  | cons x xs ih => exact insertDesc_sorted x _ ih

/-- The score-`s` entries of an insertion step: the inserted element lands
in front of every equal-scored entry (everything it passes is strictly
larger), so stability holds per score class. -/
theorem filter_insertDesc (s : ℚ) (x : ScoredContent) (m : List ScoredContent) :
    (insertDesc x m).filter (fun e => decide (e.score = s))
      = if x.score = s then x :: m.filter (fun e => decide (e.score = s))
        else m.filter (fun e => decide (e.score = s)) := by
  induction m with
  | nil => by_cases hx : x.score = s <;> simp [insertDesc, hx]
  | cons y ys ih =>
    simp only [insertDesc]
    split
    · next hge =>
      by_cases hx : x.score = s <;> simp [List.filter_cons, hx]
    · next hlt =>
      by_cases hx : x.score = s
      · have hy : ¬ (y.score = s) := by
          intro he
          exact hlt (le_of_eq (hx ▸ he))
        simp [List.filter_cons, hx, hy, ih]
      · simp [List.filter_cons, hx, ih]

/-- Stability of the sort: for each score value, the sorted list carries
exactly the entries of that score in their original order. -/
theorem sortByScoreDesc_stable (s : ℚ) (l : List ScoredContent) :
    (sortByScoreDesc l).filter (fun e => decide (e.score = s))
      = l.filter (fun e => decide (e.score = s)) := by
  unfold sortByScoreDesc
  induction l with
  | nil => rfl
  | cons x xs ih =>
    rw [List.foldr_cons, filter_insertDesc, ih, List.filter_cons]
    by_cases hx : x.score = s <;> simp [hx]

/-- The fallback list carries one fixed score, hence is trivially
descending-sorted. -/
theorem defaultRecommendations_sorted (dc : List ContentItem) :
    (defaultRecommendations dc).Sorted (fun a b => b.score ≤ a.score) := by
  unfold defaultRecommendations
  induction dc with
  | nil => simp
  | cons c cs ih =>
    rw [List.map_cons, List.sorted_cons]
    refine ⟨?_, ih⟩
    intro b hb
    simp only [List.mem_map] at hb
    obtain ⟨a, -, rfl⟩ := hb
    exact le_refl _

/-- C6 counterexample: two items identical except for their ids (equal
composite scores 0.79) supplied in the order [id 2, id 1] come back in
that same order — Python's stable sort keeps the input order on ties, so
the output ids are not ascending. -/
theorem recommendations_tie_order_counterexample :
    (generateRecommendations [tieItemHigh, tieItemLow] [] scenarioProfile
        emptyHistoryEngagement 10).map (fun e => e.content.contentId) = [2, 1]
    ∧ (generateRecommendations [tieItemHigh, tieItemLow] [] scenarioProfile
        emptyHistoryEngagement 10).map (fun e => e.score) = [79/100, 79/100]
    ∧ ¬ (((generateRecommendations [tieItemHigh, tieItemLow] [] scenarioProfile
        emptyHistoryEngagement 10).map
          (fun e => e.content.contentId)).Sorted (· ≤ ·)) := by
  with_unfolding_all decide

/-- C6 amended: the output is sorted descending by composite score, and
entries with exactly equal composite scores appear in the order of the
underlying content list (the sort is stable) — not necessarily in
ascending `content_id` order. -/
theorem recommendations_sorted_desc_stable_ties
    (allContent defaultContent : List ContentItem) (profile : UserProfile)
    (engagement : Option Engagement) (limit : Nat) (s : ℚ) :
    (generateRecommendations allContent defaultContent profile engagement
        limit).Sorted (fun a b => b.score ≤ a.score)
    ∧ (sortByScoreDesc (scoredCandidates allContent profile engagement)).filter
        (fun e => decide (e.score = s))
      = (scoredCandidates allContent profile engagement).filter
        (fun e => decide (e.score = s)) := by
  refine ⟨?_, sortByScoreDesc_stable s _⟩
  unfold generateRecommendations
  split
  · exact defaultRecommendations_sorted defaultContent
  · exact List.Pairwise.sublist (List.take_sublist _ _) (sortByScoreDesc_sorted _)

/-- Python slicing never yields more than the requested characters. -/
theorem strTake_length_le (s : String) (n : Nat) : (strTake s n).length ≤ n := by
  have h : (strTake s n).length = (s.data.take n).length := rfl
  rw [h, List.length_take]
  exact Nat.min_le_left _ _

/-- A truncated string with the ellipsis appended stays within the cap
plus three. -/
theorem strTake_ellipsis_length_le (t : String) (n : Nat) :
    (strTake t n ++ "...").length ≤ n + 3 := by
  rw [String.length_append]
  have h1 := strTake_length_le t n
  have h3 : ("..." : String).length = 3 := rfl
  omega

/-- The cap-and-ellipsis step stays within the cap plus three. -/
theorem capEllipsis_length_le (t : String) (n : Nat) :
    (if t.length > n then strTake t n ++ "..." else t).length ≤ n + 3 := by
  split
  · exact strTake_ellipsis_length_le t n
  · next hle => omega

/-- A regenerated conversation summary never exceeds the configured length
plus the three-character ellipsis. -/
theorem generateConversationSummary_length_le (sumLen : Nat)
    (messages : List Message) :
    (generateConversationSummary sumLen messages).length ≤ sumLen + 3 := by
  simp only [generateConversationSummary]
  split
  · simp [String.length]
  · exact capEllipsis_length_le _ _

/-- C5 counterexample: an 11-message conversation whose only extracted
interest is a 200-character token.  The raw summary ("User interested in "
plus the token, 219 characters) exceeds the 200-character cap, and the
stored summary — the 200-character truncation plus the ellipsis — is 203
characters long, exceeding the claimed 200-character bound. -/
theorem conversation_summary_exceeds_cap :
    ((updateConversationContext 10 200 overflowConv).summary).length = 203
    ∧ 200 < ((updateConversationContext 10 200 overflowConv).summary).length := by
  refine ⟨by decide, by decide⟩

/-- C5 amended: the stored conversation summary never exceeds 203
characters — the configured 200-character cap plus the three-character
ellipsis appended after truncation — and the bound is preserved by every
context update. -/
theorem updateConversationContext_summary_bound (maxCtx sumLen : Nat)
    (conv : Conversation) (h : conv.summary.length ≤ sumLen + 3) :
    ((updateConversationContext maxCtx sumLen conv).summary).length
      ≤ sumLen + 3 := by
  simp only [updateConversationContext]
  split
  · exact h
  · split
    · exact generateConversationSummary_length_le sumLen _
    · exact h

/-- C5 witness: the amended bound instantiated on the 11-message
conversation (empty prior summary, configured cap 200). -/
theorem updateConversationContext_summary_bound_witness :
    overflowConv.summary.length ≤ 200 + 3
    ∧ ((updateConversationContext 10 200 overflowConv).summary).length
      ≤ 200 + 3 :=
  ⟨by decide, updateConversationContext_summary_bound 10 200 overflowConv (by decide)⟩

/-- `rfindGo` computes the last matching index, shifted by the running
offset, falling back to the accumulator. -/
theorem rfindGo_eq (c : Char) (l : List Char) :
    ∀ (i acc : Int),
      rfindGo c l i acc =
        match lastIdxP (fun x => x = c) l with
        | some j => i + j
        | none => acc := by
  induction l with
  | nil => intro i acc; rfl
  | cons x t ih =>
    intro i acc
    simp only [rfindGo, lastIdxP, ih]
    cases h : lastIdxP (fun x => x = c) t with
    | some j =>
      simp only [h]
      push_cast
      ring
    | none =>
      by_cases hx : x = c <;> simp [h, hx]

/-- `strRfind` as the optional last index of the character. -/
theorem strRfind_eq (s : String) (c : Char) :
    strRfind s c = optToInt (lastIdxP (fun x => x = c) s.data) := by
  rw [strRfind, rfindGo_eq]
  cases lastIdxP (fun x => x = c) s.data <;> simp [optToInt]

/-- The last index of a disjunction of character tests is the maximum of
the individual last indices. -/
theorem lastIdxP_or (p q : Char → Bool) (l : List Char) :
    lastIdxP (fun c => p c || q c) l = optMax (lastIdxP p l) (lastIdxP q l) := by
  induction l with
  | nil => rfl
  | cons x t ih =>
    simp only [lastIdxP, ih]
    cases hp : lastIdxP p t with
    | some jp =>
      cases hq : lastIdxP q t with
      | some jq => simp [optMax, Nat.succ_max_succ]
      | none => by_cases hqx : q x <;> simp [optMax, hqx]
    | none =>
      cases hq : lastIdxP q t with
      | some jq => by_cases hpx : p x <;> simp [optMax, hpx]
      | none => by_cases hpx : p x <;> by_cases hqx : q x <;> simp [optMax, hpx, hqx]

/-- `optToInt` turns the optional maximum into an integer maximum. -/
theorem optToInt_optMax (a b : Option Nat) :
    optToInt (optMax a b) = max (optToInt a) (optToInt b) := by
  cases a <;> cases b <;> simp [optMax, optToInt] <;> omega

/-- `lastIdxP` respects pointwise-equal predicates. -/
theorem lastIdxP_congr (p q : Char → Bool) (h : ∀ c, p c = q c) (l : List Char) :
    lastIdxP p l = lastIdxP q l := by
  have hpq : p = q := funext h
  rw [hpq]

/-- The implementation's three-way `rfind` maximum computes exactly the
position of the last sentence terminator. -/
theorem max3_rfind_eq (s : String) :
    max (max (strRfind s '.') (strRfind s '?')) (strRfind s '!')
      = optToInt (lastTerminatorIdx s.data) := by
  rw [strRfind_eq, strRfind_eq, strRfind_eq, ← optToInt_optMax, ← optToInt_optMax,
    ← lastIdxP_or, ← lastIdxP_or]
  unfold lastTerminatorIdx
  refine congrArg optToInt (lastIdxP_congr _ _ ?_ s.data)
  intro c
  by_cases h1 : c = '.' <;> by_cases h2 : c = '?' <;> by_cases h3 : c = '!' <;>
    simp [sentenceTerminators, h1, h2, h3]

/-- C7 counterexample: 1006-character content whose only terminator sits at
index 5 of the 1000-character chunk.  The claim calls for the sentence cut
after that terminator, but the code hard-cuts at the chunk size because
the terminator does not clear 70% of the chunk. -/
theorem chunkContent_ignores_early_terminator :
    1000 < earlyDotContent.length
    ∧ strRfind (strTake earlyDotContent 1000) '.' = 5
    ∧ chunkContent 1000 earlyDotContent = strTake earlyDotContent 1000 ++ "..."
    ∧ chunkContent 1000 earlyDotContent ≠ strTake earlyDotContent 6 ++ "..." := by
  refine ⟨by decide, by decide, by decide, by decide⟩

/-- C7 amended: for content longer than the configured chunk size, the
chunking returns the prefix ending at the last sentence terminator of the
first `chunkSize` characters *provided that terminator sits past 70% of
the chunk size*, and otherwise — including when an earlier terminator
exists — a hard cut at exactly the chunk size; an ellipsis is appended in
both cases. -/
theorem chunkContent_sentence_boundary (chunkSize : Nat) (content : String)
    (h : chunkSize < content.length) :
    chunkContent chunkSize content =
      match lastTerminatorIdx (content.data.take chunkSize) with
      | some bp =>
        if 10 * (bp : Int) > 7 * (chunkSize : Int) then
          strTake content (bp + 1) ++ "..."
        else strTake content chunkSize ++ "..."
      | none => strTake content chunkSize ++ "..." := by
  simp only [chunkContent]
  rw [if_neg (by omega)]
  have hdata : (strTake content chunkSize).data = content.data.take chunkSize := rfl
  have hmax := max3_rfind_eq (strTake content chunkSize)
  rw [hdata] at hmax
  rw [hmax]
  cases hlt : lastTerminatorIdx (content.data.take chunkSize) with
  | some bp =>
    simp only [optToInt]
    by_cases hbp : 10 * (bp : Int) > 7 * (chunkSize : Int)
    · simp [hbp, Int.toNat_natCast]
    · simp [hbp]
  | none =>
    simp only [optToInt]
    rw [if_neg (by omega)]

/-- C7 witness: the amended characterization instantiated on the
early-terminator content at the configured chunk size 1000. -/
theorem chunkContent_sentence_boundary_witness :
    1000 < earlyDotContent.length
    ∧ chunkContent 1000 earlyDotContent =
      (match lastTerminatorIdx (earlyDotContent.data.take 1000) with
       | some bp =>
         if 10 * (bp : Int) > 7 * (1000 : Int) then
           strTake earlyDotContent (bp + 1) ++ "..."
         else strTake earlyDotContent 1000 ++ "..."
       | none => strTake earlyDotContent 1000 ++ "...") :=
  ⟨by decide, chunkContent_sentence_boundary 1000 earlyDotContent (by decide)⟩

/-- C9: the context cache key is derived only from the query, the user
profile and the context type — not from the conversation history.  For two
calls inside the TTL window sharing the same (query, profile,
context_type) triple but arbitrary (possibly different) histories, where
the first call misses the cache, the second call returns the first call's
cached bundle unchanged, and its conversation context is the one derived
from the *first* call's history. -/
theorem retrieveContext_cache_ignores_history (env : RetrieverEnv)
    (cache : ContextCache) (now1 now2 : Nat) (query : String)
    (profile : Option UserProfile) (h1 h2 : List Message) (contextType : String)
    (hmiss : cacheGet cache (query, profile, contextType) now1 = none)
    (hwin : now2 < now1 + 1800) :
    (retrieveContext env (retrieveContext env cache now1 query profile h1
        contextType).2 now2 query profile h2 contextType).1
      = (retrieveContext env cache now1 query profile h1 contextType).1
    ∧ (retrieveContext env (retrieveContext env cache now1 query profile h1
        contextType).2 now2 query profile h2 contextType).1.conversationContext
      = (if ¬ h1.isEmpty then retrieveConversationContext h1 else none) := by
  constructor <;>
  · simp only [retrieveContext]
    rw [hmiss]
    simp only [cacheGet, cacheSet, List.find?]
    simp [hwin]

/-- C9 witness: a first call with empty history warms the cache, and a
second call 600 seconds later with a non-empty history gets the first
call's bundle back. -/
theorem retrieveContext_cache_ignores_history_witness :
    cacheGet [] ("stocks 101", none, "educational") 0 = none
    ∧ (600 : Nat) < 0 + 1800
    ∧ (retrieveContext emptyEnv (retrieveContext emptyEnv [] 0 "stocks 101" none
        [] "educational").2 600 "stocks 101" none oneMsgHistory "educational").1
      = (retrieveContext emptyEnv [] 0 "stocks 101" none [] "educational").1 :=
  ⟨rfl, by omega,
    (retrieveContext_cache_ignores_history emptyEnv [] 0 600 "stocks 101" none
      [] oneMsgHistory "educational" rfl (by omega)).1⟩

end InvestX
